import Mathlib

/-!
Shallow embedding of `src/db.js`: the user identity / credential pipeline
(`getPassportByType`, `verifyPassword`, `verifyPasswordSync`, the `beforeSave`
pre-save hook, `toClient`) and the message presentation virtuals
(`friendlyTimestamp`, `location`).

JavaScript conventions modelled explicitly:
- a possibly-absent string field is `Option String`; JS truthiness of such a
  field (`undefined` and `""` are falsy) is `jsTruthyStr`;
- `bcrypt` is an external collaborator, so hashing and comparison are taken
  as function parameters; each operation additionally returns the list of
  inputs it fed to the collaborator, so "the hasher is never invoked" is the
  statement that this list is empty;
- a JS object (for `toClient`) is an association list from string keys to
  values, where a stored value is `Option α` because a key may be present
  with the value `undefined`.
-/

/-- JS truthiness of a possibly-absent string: `undefined` and `""` are falsy. -/
def jsTruthyStr : Option String → Bool
  | none => false
  | some s => s != ""

/-- A passport sub-document (`userSchema.passports` element). -/
structure Passport where
  type : String
  password : Option String := none
  accessToken : Option String := none
  profileId : Option String := none
deriving DecidableEq, Repr

/-- A user document, with the fields `beforeSave` and the methods touch. -/
structure User where
  username : String
  name : Option String := none
  passports : List Passport := []
  avatarUrl : String := "/avatar/default"
deriving DecidableEq, Repr

/-- `userSchema.methods.getPassportByType`: first passport of the given type
(`this.passports.find(p => p.type === type)`). -/
def getPassportByType (u : User) (t : String) : Option Passport :=
  u.passports.find? fun p => p.type == t

/-- The save-time failures of the `beforeSave` hook, named as in the spec's
error taxonomy: the `ValidationError` with `errors.passports` set is
`MissingLocalPassport`, the one with `errors.password` set is `MissingPassword`. -/
inductive SaveError where
  | missingLocalPassport
  | missingPassword
deriving DecidableEq, Repr

/-- In-place update `localPassport.password = hash`: the passport object the
hook mutates is the one `find` returned, i.e. the first of type `local`. -/
def setFirstLocalPasswordHash : List Passport → String → List Passport
  | [], _ => []
  | p :: ps, d =>
    if p.type == "local" then { p with password := some d } :: ps
    else p :: setFirstLocalPasswordHash ps d

/-- The `beforeSave` pre-save hook. `hashFn` stands for `bcrypt.hash` (its
error path is not taken in this model). Returns the document state after the
hook ran (JS mutates `this` in place, so the state is returned even when the
hook fails), the outcome handed to `next`, and the list of plaintexts passed
to the hasher. -/
def beforeSave (hashFn : String → String) (u0 : User) :
    User × Except SaveError Unit × List String :=
  let u := if jsTruthyStr u0.name then u0 else { u0 with name := some u0.username }
  match getPassportByType u "local" with
  | none => (u, Except.error SaveError.missingLocalPassport, [])
  | some lp =>
    match lp.password with
    | none => (u, Except.error SaveError.missingPassword, [])
    | some pw =>
      if pw == "" then (u, Except.error SaveError.missingPassword, [])
      else
        ({ u with passports := setFirstLocalPasswordHash u.passports (hashFn pw) },
         Except.ok (), [pw])

/-- A JS value as far as `verifyPasswordSync` can produce one: its `&&` chain
returns the first falsy operand, so the result can be `undefined`, a string,
or a boolean. -/
inductive JSValue where
  | undef
  | bool (b : Bool)
  | str (s : String)
deriving DecidableEq, Repr

/-- JS truthiness of a `JSValue`. -/
def jsFalsy : JSValue → Bool
  | .undef => true
  | .bool b => !b
  | .str s => s == ""

/-- `userSchema.methods.verifyPassword` (async variant): the boolean the
callback receives, paired with the `(plaintext, digest)` calls made to
`bcrypt.compare` (`compare` parameter; digest is the stored `password`
field, possibly absent). -/
def verifyPassword (compare : String → Option String → Bool) (u : User)
    (password : String) : Bool × List (String × Option String) :=
  match getPassportByType u "local" with
  | some lp =>
    if password == "" then (false, [])
    else (compare password lp.password, [(password, lp.password)])
  | none => (false, [])

/-- `userSchema.methods.verifyPasswordSync`: the value of
`password && localPassport && bcrypt.compareSync(password, localPassport.password)`,
which is the first falsy operand of the chain (the string `password` itself,
or `undefined` for a missing passport), not necessarily a boolean. -/
def verifyPasswordSync (compare : String → Option String → Bool) (u : User)
    (password : String) : JSValue × List (String × Option String) :=
  if password == "" then (JSValue.str password, [])
  else match getPassportByType u "local" with
    | none => (JSValue.undef, [])
    | some lp => (JSValue.bool (compare password lp.password), [(password, lp.password)])

/-- The `username` field validator, `v && v.length > 0 && v.length < 32`,
coerced to the boolean mongoose extracts from it. -/
def usernameValidator (v : String) : Bool :=
  (v != "") && (v.length > 0) && (v.length < 32)

/-- Field validation of `username` as a whole: the schema's `trim: true`
setter runs before the validator does. -/
def usernameFieldValid (raw : String) : Bool :=
  usernameValidator raw.trim

section ClientObject

variable {α : Type}

/-- `k in obj`: some entry of the association list has key `k`. -/
def objHasKey (o : List (String × Option α)) (k : String) : Bool :=
  o.any fun kv => kv.fst == k

/-- `obj[k]` as read in JS: a missing key reads as `undefined` (`none`),
indistinguishable from a present key holding `undefined`. -/
def objGet (o : List (String × Option α)) (k : String) : Option α :=
  match o.find? (fun kv => kv.fst == k) with
  | some kv => kv.snd
  | none => none

/-- `obj[k] = v`: overwrite the entries with key `k`, or append the key. -/
def objSet (o : List (String × Option α)) (k : String) (v : Option α) :
    List (String × Option α) :=
  if o.any (fun kv => kv.fst == k)
  then o.map fun kv => if kv.fst == k then (k, v) else kv
  else o ++ [(k, v)]

/-- `delete obj[k]`. -/
def objDelete (o : List (String × Option α)) (k : String) :
    List (String × Option α) :=
  o.filter fun kv => !(kv.fst == k)

/-- `userSchema.method('toClient')` on the plain object `this.toObject()`
returns: `obj.id = obj._id; delete obj._id; delete obj.passports; return obj`.
A total pure function of the input object. -/
def toClient (o : List (String × Option α)) : List (String × Option α) :=
  objDelete (objDelete (objSet o "id" (objGet o "_id")) "_id") "passports"

end ClientObject

/-- The `geo` sub-document of a message. -/
structure Geo where
  country_name : Option String := none
  region_name : Option String := none
  city : Option String := none
  time_zone : Option String := none
deriving DecidableEq, Repr

/-- `.length` of a possibly-absent string (only ever evaluated by the source
behind a truthiness guard, so the `none` value here is never reached). -/
def optLen : Option String → Nat
  | none => 0
  | some s => s.length

/-- The `messageSchema.virtual('location')` getter: `geo.time_zone` when
truthy and non-empty, else `city + '/' + country_name` when both are truthy
and non-empty, else `undefined`. -/
def location (g : Geo) : Option String :=
  if jsTruthyStr g.time_zone && decide (optLen g.time_zone > 0) then
    g.time_zone
  else if jsTruthyStr g.country_name && decide (optLen g.country_name ≠ 0)
      && jsTruthyStr g.city && decide (optLen g.city ≠ 0) then
    some ((g.city).getD "" ++ "/" ++ (g.country_name).getD "")
  else
    none

/-- The location string as the claim describes it: `geo.time_zone` whenever
non-empty; otherwise city and country joined as `city/country_name` when both
are non-empty; otherwise absent (`region_name` plays no part). -/
def claimLocation (g : Geo) : Option String :=
  if jsTruthyStr g.time_zone then g.time_zone
  else
    match g.city, g.country_name with
    | some c, some cn => if c ≠ "" ∧ cn ≠ "" then some (c ++ "/" ++ cn) else none
    | _, _ => none

/-- The `messageSchema.virtual('friendlyTimestamp')` getter as a function of
`delta`, the (rounded) difference `now - createdAt` in seconds. `Math.floor`
of a quotient of integers is `Int.fdiv`. Note the source's final literal is
`' a long time ago'`, with a leading space. -/
def friendlyTimestamp (delta : Int) : String :=
  let minute : Int := 60
  let hour : Int := minute * 60
  let day : Int := hour * 24
  let week : Int := day * 7
  if delta < 30 then "just now"
  else if delta < minute then toString delta ++ " seconds ago"
  else if delta < 2 * minute then "a minute ago"
  else if delta < hour then toString (Int.fdiv delta minute) ++ " minutes ago"
  else if Int.fdiv delta hour == 1 then "1 hour ago"
  else if delta < day then toString (Int.fdiv delta hour) ++ " hours ago"
  else if delta < day * 2 then "yesterday"
  else if delta < week then toString (Int.fdiv delta day) ++ " days ago"
  else " a long time ago"

/-- The relative-age string as the claim lists its buckets, with the bucket
bounds spelled out in seconds ("exactly one hour" is `3600 ≤ delta < 7200`);
the final bucket carries the leading space the source actually emits. -/
def claimFriendly (delta : Int) : String :=
  if delta < 30 then "just now"
  else if delta < 60 then toString delta ++ " seconds ago"
  else if delta < 120 then "a minute ago"
  else if delta < 3600 then toString (Int.fdiv delta 60) ++ " minutes ago"
  else if delta < 7200 then "1 hour ago"
  else if delta < 86400 then toString (Int.fdiv delta 3600) ++ " hours ago"
  else if delta < 172800 then "yesterday"
  else if delta < 604800 then toString (Int.fdiv delta 86400) ++ " days ago"
  else " a long time ago"

/-- A concrete stand-in digest function for evaluating the pipeline at
specific inputs (the real `bcrypt.hash` is an external collaborator). -/
def hash0 (s : String) : String :=
  "$2b$10$" ++ s

/-- Concrete user without any `local` passport. -/
def userNoLocal : User :=
  { username := "bob", passports := [{ type := "facebook", accessToken := some "tok" }] }

/-- Concrete user whose local passport has an empty password. -/
def userEmptyPw : User :=
  { username := "bob", passports := [{ type := "local", password := some "" }] }

/-- Concrete user with no name and a well-formed local passport. -/
def userAlice : User :=
  { username := "alice", passports := [{ type := "local", password := some "s3cret" }] }

/-- Concrete user with no name and no passports at all. -/
def userCarol : User :=
  { username := "carol" }

/-- A concrete stand-in for `bcrypt.compare` at specific inputs. -/
def compare0 (pw : String) (digest : Option String) : Bool :=
  some (hash0 pw) == digest


section ClientObjectLemmas

variable {α : Type}

theorem objHasKey_objDelete_self (o : List (String × Option α)) (k : String) :
    objHasKey (objDelete o k) k = false := by
  simp [objHasKey, objDelete, List.any_eq_true, List.mem_filter]

theorem objHasKey_objDelete_ne (o : List (String × Option α)) {k k' : String}
    (h : k ≠ k') : objHasKey (objDelete o k') k = objHasKey o k := by
  rw [Bool.eq_iff_iff]
  simp only [objHasKey, objDelete, List.any_eq_true, List.mem_filter,
    Bool.not_eq_true', beq_iff_eq, beq_eq_false_iff_ne]
  constructor
  · rintro ⟨x, ⟨hx, -⟩, hk⟩
    exact ⟨x, hx, hk⟩
  · rintro ⟨x, hx, hk⟩
    exact ⟨x, ⟨hx, by rw [hk]; exact h⟩, hk⟩

theorem objGet_objDelete_ne (o : List (String × Option α)) {k k' : String}
    (h : k ≠ k') : objGet (objDelete o k') k = objGet o k := by
  induction o with
  | nil => rfl
  | cons kv o ih =>
    by_cases hk' : kv.fst = k'
    · have hfil : objDelete (kv :: o) k' = objDelete o k' := by
        simp [objDelete, List.filter_cons, hk']
      have h2 : (kv.fst == k) = false :=
        beq_eq_false_iff_ne.mpr (by rw [hk']; exact Ne.symm h)
      rw [hfil, ih]
      simp [objGet, List.find?, h2]
    · have hfil : objDelete (kv :: o) k' = kv :: objDelete o k' := by
        simp [objDelete, List.filter_cons, hk']
      rw [hfil]
      by_cases hk : kv.fst = k
      · simp [objGet, List.find?, hk]
      · have h2 : (kv.fst == k) = false := beq_eq_false_iff_ne.mpr hk
        simp only [objGet, List.find?, h2] at ih ⊢
        exact ih

theorem objHasKey_objSet_self (o : List (String × Option α)) (k : String)
    (v : Option α) : objHasKey (objSet o k v) k = true := by
  unfold objSet objHasKey
  by_cases h : o.any (fun kv => kv.fst == k) = true
  · rw [if_pos h]
    simp only [List.any_eq_true] at h ⊢
    obtain ⟨x, hx, he⟩ := h
    refine ⟨(k, v), List.mem_map.mpr ⟨x, hx, ?_⟩, by simp⟩
    simp [he]
  · rw [if_neg h]
    simp

theorem objGet_map_overwrite (o : List (String × Option α)) (k : String)
    (v : Option α) (h : o.any (fun kv => kv.fst == k) = true) :
    objGet (o.map fun kv => if kv.fst == k then (k, v) else kv) k = v := by
  induction o with
  | nil => simp at h
  | cons kv o ih =>
    by_cases hk : kv.fst = k
    · simp [objGet, List.find?, hk]
    · have h2 : (kv.fst == k) = false := beq_eq_false_iff_ne.mpr hk
      simp only [List.any_cons, h2, Bool.false_or] at h
      simp only [List.map_cons, if_neg (by simp [h2] : ¬(kv.fst == k) = true)]
      simp only [objGet, List.find?, h2] at ih ⊢
      exact ih h

theorem objGet_append_new (o : List (String × Option α)) (k : String)
    (v : Option α) (h : o.any (fun kv => kv.fst == k) = false) :
    objGet (o ++ [(k, v)]) k = v := by
  induction o with
  | nil => simp [objGet, List.find?]
  | cons kv o ih =>
    rw [List.any_cons, Bool.or_eq_false_iff] at h
    simp only [List.cons_append, objGet, List.find?, h.1] at ih ⊢
    exact ih h.2

theorem objGet_objSet_self (o : List (String × Option α)) (k : String)
    (v : Option α) : objGet (objSet o k v) k = v := by
  unfold objSet
  by_cases h : o.any (fun kv => kv.fst == k) = true
  · rw [if_pos h]
    exact objGet_map_overwrite o k v h
  · rw [if_neg h]
    exact objGet_append_new o k v (Bool.eq_false_iff.mpr h)

end ClientObjectLemmas

/-- C2: for every plain object, `toClient` yields an object that has an `id`
key, has no `passports` key, and whose `id` value is the input's `_id` value;
being a total Lean function of its input, it is pure with no failure modes. -/
theorem toClient_has_id_no_passports {α : Type} (o : List (String × Option α)) :
    objHasKey (toClient o) "id" = true ∧
    objHasKey (toClient o) "passports" = false ∧
    objGet (toClient o) "id" = objGet o "_id" := by
  unfold toClient
  refine ⟨?_, ?_, ?_⟩
  · rw [objHasKey_objDelete_ne _ (by decide), objHasKey_objDelete_ne _ (by decide)]
    exact objHasKey_objSet_self o "id" (objGet o "_id")
  · exact objHasKey_objDelete_self _ "passports"
  · rw [objGet_objDelete_ne _ (by decide), objGet_objDelete_ne _ (by decide)]
    exact objGet_objSet_self o "id" (objGet o "_id")

theorem string_length_pos_iff (s : String) : 0 < s.length ↔ s ≠ "" := by
  obtain ⟨d⟩ := s
  cases d with
  | nil => simp
  | cons c cs => simp [String.ext_iff]

/-- C6: username field validation (after the schema's trim) succeeds exactly
when the trimmed length is between 1 and 31 inclusive, and fails exactly when
that length is 0 or at least 32. -/
theorem usernameFieldValid_iff (s : String) :
    (usernameFieldValid s = true ↔
      1 ≤ s.trim.length ∧ s.trim.length ≤ 31) ∧
    (usernameFieldValid s = false ↔
      s.trim.length = 0 ∨ 32 ≤ s.trim.length) := by
  have h := string_length_pos_iff s.trim
  have hval : usernameFieldValid s = true ↔
      1 ≤ s.trim.length ∧ s.trim.length ≤ 31 := by
    simp only [usernameFieldValid, usernameValidator, Bool.and_eq_true,
      bne_iff_ne, decide_eq_true_eq]
    constructor
    · rintro ⟨⟨hne, hpos⟩, hlt⟩
      omega
    · rintro ⟨h1, h2⟩
      exact ⟨⟨h.mp (by omega), by omega⟩, by omega⟩
  refine ⟨hval, ?_⟩
  constructor
  · intro hf
    have hn : ¬(1 ≤ s.trim.length ∧ s.trim.length ≤ 31) := by
      rw [← hval, hf]
      simp
    omega
  · intro hor
    refine Bool.eq_false_iff.mpr fun ht => ?_
    have := hval.mp ht
    omega

/-- C3: when a user has no passport of type `local`, `beforeSave` hands
`next` the `MissingLocalPassport` error and never invokes the hasher (so it
reaches neither the password check nor the hashing step). -/
theorem beforeSave_missing_local (hashFn : String → String) (u : User)
    (h : getPassportByType u "local" = none) :
    (beforeSave hashFn u).2.1 = Except.error SaveError.missingLocalPassport ∧
    (beforeSave hashFn u).2.2 = [] := by
  have e1 : getPassportByType { u with name := some u.username } "local" =
      getPassportByType u "local" := rfl
  unfold beforeSave
  cases hn : jsTruthyStr u.name <;> simp [hn, e1, h]

/-- C3 witness: a user with only a facebook passport is rejected with
`MissingLocalPassport` and the hasher is never called. -/
theorem beforeSave_missing_local_witness :
    getPassportByType userNoLocal "local" = none ∧
    ((beforeSave hash0 userNoLocal).2.1 =
        Except.error SaveError.missingLocalPassport ∧
     (beforeSave hash0 userNoLocal).2.2 = []) :=
  ⟨by decide, beforeSave_missing_local hash0 userNoLocal (by decide)⟩

/-- C4: when the user's local passport has an empty (or absent) password
field, `beforeSave` hands `next` the `MissingPassword` error and the hasher
is never invoked. -/
theorem beforeSave_missing_password (hashFn : String → String) (u : User)
    (lp : Passport) (h1 : getPassportByType u "local" = some lp)
    (h2 : jsTruthyStr lp.password = false) :
    (beforeSave hashFn u).2.1 = Except.error SaveError.missingPassword ∧
    (beforeSave hashFn u).2.2 = [] := by
  have e1 : getPassportByType { u with name := some u.username } "local" =
      getPassportByType u "local" := rfl
  cases hp : lp.password with
  | none =>
    unfold beforeSave
    cases hn : jsTruthyStr u.name <;> simp [hn, e1, h1, hp]
  | some pw =>
    have hpw : pw = "" := by
      rw [hp] at h2
      simpa [jsTruthyStr] using h2
    unfold beforeSave
    cases hn : jsTruthyStr u.name <;> simp [hn, e1, h1, hp, hpw]

/-- C4 witness: a local passport carrying the empty password is rejected with
`MissingPassword` before any hashing. -/
theorem beforeSave_missing_password_witness :
    getPassportByType userEmptyPw "local" =
      some { type := "local", password := some "" } ∧
    jsTruthyStr (some "") = false ∧
    ((beforeSave hash0 userEmptyPw).2.1 =
        Except.error SaveError.missingPassword ∧
     (beforeSave hash0 userEmptyPw).2.2 = []) :=
  ⟨by decide, by decide,
    beforeSave_missing_password hash0 userEmptyPw
      { type := "local", password := some "" } (by decide) (by decide)⟩

theorem beforeSave_doc_name (hashFn : String → String) (u : User)
    (h1 : jsTruthyStr u.name = false) :
    (beforeSave hashFn u).1.name = some u.username := by
  unfold beforeSave
  simp only [h1, Bool.false_eq_true, if_false]
  cases hloc : getPassportByType { u with name := some u.username } "local" with
  | none => simp [hloc]
  | some lp =>
    cases hp : lp.password with
    | none => simp [hloc, hp]
    | some pw =>
      by_cases hpw : (pw == "") = true
      · simp [hloc, hp, hpw]
      · simp [hloc, hp, hpw]

/-- C7: when the name field is empty (absent or `""`), `beforeSave` sets it
to the username as its first step, so the document that the rest of the
pipeline sees — and that a successful save persists — carries
`name = username`, which is non-empty whenever the username is (and the
username always is, having passed field validation before the hook runs). -/
theorem beforeSave_defaults_name (hashFn : String → String) (u : User)
    (h1 : jsTruthyStr u.name = false) (h2 : u.username ≠ "") :
    (beforeSave hashFn u).1.name = some u.username ∧
    jsTruthyStr (beforeSave hashFn u).1.name = true := by
  have hd := beforeSave_doc_name hashFn u h1
  refine ⟨hd, ?_⟩
  rw [hd]
  simpa [jsTruthyStr] using h2

/-- C7 witness: saving the nameless `alice` persists `name = "alice"`. -/
theorem beforeSave_defaults_name_witness :
    jsTruthyStr userAlice.name = false ∧ userAlice.username ≠ "" ∧
    ((beforeSave hash0 userAlice).1.name = some userAlice.username ∧
     jsTruthyStr (beforeSave hash0 userAlice).1.name = true) :=
  ⟨by decide, by decide,
    beforeSave_defaults_name hash0 userAlice (by decide) (by decide)⟩

/-- C10: the save pipeline is not atomic on failure — the default-name
mutation happens before the passport checks, so a save rejected with either
error still leaves the document's name changed to the username. -/
theorem beforeSave_failure_still_mutates_name (hashFn : String → String)
    (u : User) (e : SaveError) (h1 : jsTruthyStr u.name = false)
    (_h2 : (beforeSave hashFn u).2.1 = Except.error e) (h3 : u.username ≠ "") :
    (beforeSave hashFn u).1.name = some u.username ∧
    (beforeSave hashFn u).1.name ≠ u.name := by
  have hd := beforeSave_doc_name hashFn u h1
  refine ⟨hd, ?_⟩
  rw [hd]
  cases hu : u.name with
  | none => simp
  | some s =>
    have hs : s = "" := by
      rw [hu] at h1
      simpa [jsTruthyStr] using h1
    simp [hs]
    exact h3

/-- C10 witness: `carol` has no passports, so her save is rejected with
`MissingLocalPassport`, yet her name field has been changed to `"carol"`. -/
theorem beforeSave_failure_still_mutates_name_witness :
    jsTruthyStr userCarol.name = false ∧
    (beforeSave hash0 userCarol).2.1 =
      Except.error SaveError.missingLocalPassport ∧
    userCarol.username ≠ "" ∧
    ((beforeSave hash0 userCarol).1.name = some userCarol.username ∧
     (beforeSave hash0 userCarol).1.name ≠ userCarol.name) :=
  ⟨by decide, rfl, by decide,
    beforeSave_failure_still_mutates_name hash0 userCarol
      SaveError.missingLocalPassport (by decide) rfl (by decide)⟩

/-- C1 (code-bug evidence): `beforeSave` has no dirty-password guard, so a
second save of an unmodified user feeds the stored digest back to the hasher:
the hasher is invoked again (the call list of the second save is non-empty)
and the stored digest changes from `hash("s3cret")` to `hash(hash("s3cret"))`. -/
theorem beforeSave_second_save_rehashes :
    (beforeSave hash0 userAlice).2.1 = Except.ok () ∧
    (getPassportByType (beforeSave hash0 userAlice).1 "local").map
      Passport.password = some (some (hash0 "s3cret")) ∧
    (beforeSave hash0 (beforeSave hash0 userAlice).1).2.1 = Except.ok () ∧
    (beforeSave hash0 (beforeSave hash0 userAlice).1).2.2 = [hash0 "s3cret"] ∧
    (getPassportByType (beforeSave hash0 (beforeSave hash0 userAlice).1).1
        "local").map Passport.password = some (some (hash0 (hash0 "s3cret"))) ∧
    hash0 (hash0 "s3cret") ≠ hash0 "s3cret" :=
  ⟨rfl, rfl, rfl, rfl, rfl, by decide⟩

/-- C5 counterexample: on a user who does have a local passport, calling the
sync variant with the empty plaintext returns the empty string — a falsy
value, but not the boolean `false` the claim promises for both variants. -/
theorem verifyPasswordSync_not_bool_false :
    (verifyPasswordSync compare0 userAlice "").1 = JSValue.str "" ∧
    JSValue.str "" ≠ JSValue.bool false :=
  ⟨rfl, by decide⟩

/-- C5 (amended): when the plaintext is empty or no local passport exists,
the async variant yields the boolean false and the sync variant yields a
falsy value (the empty plaintext itself, or `undefined`), in both cases
without invoking the comparer; otherwise both delegate to the comparer on
the plaintext and the stored digest. -/
theorem verifyPassword_guard (compare : String → Option String → Bool)
    (u : User) (pw : String) :
    ((pw = "" ∨ getPassportByType u "local" = none) →
      verifyPassword compare u pw = (false, []) ∧
      jsFalsy (verifyPasswordSync compare u pw).1 = true ∧
      (verifyPasswordSync compare u pw).2 = []) ∧
    (∀ lp : Passport, pw ≠ "" → getPassportByType u "local" = some lp →
      verifyPassword compare u pw =
        (compare pw lp.password, [(pw, lp.password)]) ∧
      verifyPasswordSync compare u pw =
        (JSValue.bool (compare pw lp.password), [(pw, lp.password)])) := by
  constructor
  · rintro (hpw | hloc)
    · subst hpw
      cases hl : getPassportByType u "local" <;>
        simp [verifyPassword, verifyPasswordSync, hl, jsFalsy]
    · by_cases hpw : pw = "" <;>
        simp [verifyPassword, verifyPasswordSync, hloc, hpw, jsFalsy]
  · intro lp hpw hloc
    have hb : (pw == "") = false := beq_eq_false_iff_ne.mpr hpw
    simp [verifyPassword, verifyPasswordSync, hloc, hb]

/-- C5 witness: concrete evaluations of the amended claim — the guarded case
on an empty plaintext, and the delegating case on `alice`. -/
theorem verifyPassword_guard_witness :
    verifyPassword compare0 userAlice "" = (false, []) ∧
    verifyPassword compare0 userAlice "s3cret" =
      (compare0 "s3cret" (some "s3cret"), [("s3cret", some "s3cret")]) ∧
    verifyPasswordSync compare0 userAlice "s3cret" =
      (JSValue.bool (compare0 "s3cret" (some "s3cret")),
       [("s3cret", some "s3cret")]) :=
  ⟨((verifyPassword_guard compare0 userAlice "").1 (Or.inl rfl)).1,
   ((verifyPassword_guard compare0 userAlice "s3cret").2
      { type := "local", password := some "s3cret" } (by decide) (by decide)).1,
   ((verifyPassword_guard compare0 userAlice "s3cret").2
      { type := "local", password := some "s3cret" } (by decide) (by decide)).2⟩

theorem locationCityCountry_eq (g : Geo) :
    (if jsTruthyStr g.country_name && decide (optLen g.country_name ≠ 0)
        && jsTruthyStr g.city && decide (optLen g.city ≠ 0) then
       some ((g.city).getD "" ++ "/" ++ (g.country_name).getD "")
     else none) =
    (match g.city, g.country_name with
     | some c, some cn =>
       if c ≠ "" ∧ cn ≠ "" then some (c ++ "/" ++ cn) else none
     | _, _ => none) := by
  cases hc : g.city with
  | none => cases hcn : g.country_name <;> simp [jsTruthyStr, optLen]
  | some c =>
    cases hcn : g.country_name with
    | none => simp [jsTruthyStr, optLen]
    | some cn =>
      by_cases hce : c = ""
      · subst hce
        simp [jsTruthyStr, optLen]
      · by_cases hcne : cn = ""
        · subst hcne
          simp [jsTruthyStr, optLen]
        · have h1 : c.length ≠ 0 := by
            have := (string_length_pos_iff c).mpr hce
            omega
          have h2 : cn.length ≠ 0 := by
            have := (string_length_pos_iff cn).mpr hcne
            omega
          simp [jsTruthyStr, optLen, hce, hcne, h1, h2]

/-- C8: the location virtual is exactly the claim's description — the time
zone when non-empty, else `city/country_name` when both are non-empty, else
absent — and the region name never affects it. -/
theorem location_eq_claim (g : Geo) (r : Option String) :
    location g = claimLocation g ∧
    location { g with region_name := r } = location g := by
  refine ⟨?_, rfl⟩
  unfold location claimLocation
  cases htz : g.time_zone with
  | none =>
    simpa [jsTruthyStr, optLen] using locationCityCountry_eq g
  | some tz =>
    by_cases he : tz = ""
    · subst he
      simpa [jsTruthyStr, optLen] using locationCityCountry_eq g
    · have h1 : 0 < tz.length := (string_length_pos_iff tz).mpr he
      simp [jsTruthyStr, optLen, he, h1]

/-- C9 counterexample: in the final bucket (delta of one week) the code emits
`' a long time ago'` with a leading space, not the claim's `"a long time ago"`. -/
theorem friendlyTimestamp_leading_space :
    friendlyTimestamp 604800 = " a long time ago" ∧
    friendlyTimestamp 604800 ≠ "a long time ago" := by
  constructor
  · rfl
  · decide

/-- C9 (amended): the relative-age string follows exactly the claim's bucket
thresholds, except that the final bucket's string carries a leading space
(`' a long time ago'`), as the source emits it. -/
theorem friendlyTimestamp_eq_claim (d : Int) :
    friendlyTimestamp d = claimFriendly d := by
  have hfd : Int.fdiv d 3600 = d / 3600 := Int.fdiv_eq_ediv d (by norm_num)
  unfold friendlyTimestamp claimFriendly
  norm_num
  by_cases h1 : d < 30
  · simp [h1]
  by_cases h2 : d < 60
  · simp [h1, h2]
  by_cases h3 : d < 120
  · simp [h1, h2, h3]
  by_cases h4 : d < 3600
  · simp [h1, h2, h3, h4]
  by_cases h5 : d < 7200
  · have hq : Int.fdiv d 3600 = 1 := by
      rw [hfd]
      omega
    simp [h1, h2, h3, h4, h5, hq]
  · have hq : ¬(Int.fdiv d 3600 = 1) := by
      rw [hfd]
      omega
    by_cases h6 : d < 86400
    · simp [h1, h2, h3, h4, h5, h6, hq]
    by_cases h7 : d < 172800
    · simp [h1, h2, h3, h4, h5, h6, h7, hq]
    by_cases h8 : d < 604800
    · simp [h1, h2, h3, h4, h5, h6, h7, h8, hq]
    · simp [h1, h2, h3, h4, h5, h6, h7, h8, hq]
